import Mathlib

/-!
Shallow embedding of the Job-Marketplace backend route handlers
(`src/backend/routes/projects.js`, `src/backend/routes/tasks.js`: the
project, request, task, submission and user routers) over an explicit
in-memory database state.

Modelling conventions:
* Each Prisma table is a Lean list of records; `findUnique`/`findFirst`
  become `List.find?`, `update`/`updateMany` become an id/predicate-keyed
  map over the list (`updWhere`), `create` appends a record carrying the
  next fresh id.
* Entity ids are `Nat`; statuses and roles are the exact `String` literals
  the handlers compare against (the schema stores them as TEXT).
* Each handler is a pure function `DB → params → DB × Resp`, where `Resp`
  is either success or the HTTP error (status code, message) the handler
  returns; `protect`/`authorize(role)` middleware is modelled as the
  leading role check.
* Fields the claims never touch (titles, descriptions, deadlines, emails,
  budgets, timestamps, request/submission messages) are omitted; a
  submission's stored file is an opaque `fileRef : Nat`, and `reviewedAt`
  is modelled as the flag `reviewed`.
* The store-level unique index `requests_projectId_solverId_key` from the
  migration is modelled by `requestsCreateUnique` (the `P2002` error path
  of `POST /api/requests`).
-/

namespace Marketplace

structure User where
  id : Nat
  role : String
deriving DecidableEq

structure Project where
  id : Nat
  buyerId : Nat
  assignedSolverId : Option Nat
  status : String
deriving DecidableEq

structure Request where
  id : Nat
  projectId : Nat
  solverId : Nat
  status : String
deriving DecidableEq

structure Task where
  id : Nat
  projectId : Nat
  userId : Nat
  status : String
deriving DecidableEq

structure Submission where
  id : Nat
  taskId : Nat
  projectId : Nat
  solverId : Nat
  fileRef : Nat
  status : String
  reviewed : Bool
deriving DecidableEq

structure DB where
  users : List User
  projects : List Project
  requests : List Request
  tasks : List Task
  submissions : List Submission
  nextId : Nat
deriving DecidableEq

/-- Handler outcome: success, or the error response (HTTP status, message). -/
inductive Resp where
  | ok : Resp
  | err : Nat → String → Resp
deriving DecidableEq

/-- Prisma `update`/`updateMany`: rewrite every row matching the predicate. -/
def updWhere {α : Type} (c : α → Bool) (f : α → α) (l : List α) : List α :=
  l.map (fun x => if c x then f x else x)

/-- `POST /api/projects` (projects.js): buyer creates a project; the schema
defaults give `status = "open"` and no assigned solver. -/
def createProject (db : DB) (actor : User) : DB × Resp :=
  if actor.role ≠ "buyer" then (db, .err 403 "Not authorized")
  else
    ({ db with
        projects := db.projects ++ [⟨db.nextId, actor.id, none, "open"⟩],
        nextId := db.nextId + 1 }, .ok)

/-- `PUT /api/projects/:id/assign` (projects.js): after the ownership check
the handler runs `prisma.project.update` — which, per the migration's
`projects_assignedSolverId_fkey`, throws `P2003` when `solverId` references
no user row; the catch-all then answers 500 with no state changed.
Otherwise it unconditionally sets `status = "assigned"` and
`assignedSolverId` (no open-status or request-existence check), then runs
the two `updateMany` calls on requests. -/
def assignSolver (db : DB) (actor : User) (pid sid : Nat) : DB × Resp :=
  if actor.role ≠ "buyer" then (db, .err 403 "Not authorized")
  else
    match db.projects.find? (fun p => p.id == pid) with
    | none => (db, .err 404 "Project not found")
    | some p =>
      if p.buyerId ≠ actor.id then (db, .err 403 "Not authorized")
      else if db.users.any (fun u => u.id == sid) then
        ({ db with
            projects := updWhere (fun q => q.id == pid)
              (fun q => { q with assignedSolverId := some sid, status := "assigned" })
              db.projects,
            requests := updWhere (fun r => r.projectId == pid && r.solverId != sid)
              (fun r => { r with status := "rejected" })
              (updWhere (fun r => r.projectId == pid && r.solverId == sid)
                (fun r => { r with status := "accepted" }) db.requests) }, .ok)
      else (db, .err 500 "Server error")

/-- The store-level unique index `requests_projectId_solverId_key`: an insert
that duplicates `(projectId, solverId)` fails with Prisma error `P2002`. -/
def requestsCreateUnique (rs : List Request) (r : Request) :
    Except String (List Request) :=
  if rs.any (fun x => x.projectId == r.projectId && x.solverId == r.solverId) then
    Except.error "P2002"
  else
    Except.ok (rs ++ [r])

/-- `POST /api/requests` (tasks.js, requests router): open-project check,
duplicate pre-check, then the insert guarded by the unique index (whose
`P2002` failure the catch block maps to the same 400 response). -/
def createRequest (db : DB) (actor : User) (pid : Nat) : DB × Resp :=
  if actor.role ≠ "problem_solver" then (db, .err 403 "Not authorized")
  else
    match db.projects.find? (fun p => p.id == pid) with
    | none => (db, .err 404 "Project not found")
    | some p =>
      if p.status ≠ "open" then (db, .err 400 "Project is not open for requests")
      else
        match db.requests.find? (fun r => r.projectId == pid && r.solverId == actor.id) with
        | some _ => (db, .err 400 "Request already exists")
        | none =>
          match requestsCreateUnique db.requests ⟨db.nextId, pid, actor.id, "pending"⟩ with
          | .error _ => (db, .err 400 "Request already exists")
          | .ok rs => ({ db with requests := rs, nextId := db.nextId + 1 }, .ok)

/-- `POST /api/tasks` (tasks.js): solver creates a task on a project assigned
to them; the new task starts `"pending"`, and a project still `"assigned"`
is advanced to `"in_progress"`. -/
def createTask (db : DB) (actor : User) (pid : Nat) : DB × Resp :=
  if actor.role ≠ "problem_solver" then (db, .err 403 "Not authorized")
  else
    match db.projects.find? (fun p => p.id == pid) with
    | none => (db, .err 404 "Project not found")
    | some p =>
      match p.assignedSolverId with
      | none => (db, .err 400 "Project is not assigned yet")
      | some solverId =>
        if solverId ≠ actor.id then
          (db, .err 403 "Not authorized to create tasks for this project")
        else
          ({ db with
              tasks := db.tasks ++ [⟨db.nextId, pid, actor.id, "pending"⟩],
              projects :=
                if p.status = "assigned" then
                  updWhere (fun q => q.id == pid)
                    (fun q => { q with status := "in_progress" }) db.projects
                else db.projects,
              nextId := db.nextId + 1 }, .ok)

/-- The five values admitted by the `PUT /api/tasks/:id` express-validator. -/
def taskStatuses : List String :=
  ["pending", "in_progress", "submitted", "completed", "rejected"]

def statusValid : Option String → Bool
  | none => true
  | some s => taskStatuses.contains s

/-- `PUT /api/tasks/:id` (tasks.js): the validator rejects a status outside
the global enumeration; a solver's requested status is applied only when it
is in {pending, in_progress, submitted}, a buyer's only when it is in
{completed, rejected}; a requested status outside the actor's list is
dropped and the update still succeeds. Title/description/deadline updates
are omitted from the model (the claims only concern the status field). -/
def updateTask (db : DB) (actor : User) (tid : Nat) (st : Option String) : DB × Resp :=
  if statusValid st = false then (db, .err 400 "Invalid status value")
  else
    match db.tasks.find? (fun t => t.id == tid) with
    | none => (db, .err 404 "Task not found")
    | some t =>
      match db.projects.find? (fun p => p.id == t.projectId) with
      | none => (db, .err 500 "Server error")
      | some p =>
        if actor.role = "problem_solver" then
          if p.assignedSolverId ≠ some actor.id then (db, .err 403 "Not authorized")
          else
            let newStatus : Option String :=
              match st with
              | some s =>
                if s = "pending" ∨ s = "in_progress" ∨ s = "submitted" then some s
                else none
              | none => none
            ({ db with
                tasks := updWhere (fun x => x.id == tid)
                  (fun x => { x with status := newStatus.getD x.status }) db.tasks }, .ok)
        else if actor.role = "buyer" then
          if p.buyerId ≠ actor.id then (db, .err 403 "Not authorized")
          else
            let newStatus : Option String :=
              match st with
              | some s => if s = "completed" ∨ s = "rejected" then some s else none
              | none => none
            ({ db with
                tasks := updWhere (fun x => x.id == tid)
                  (fun x => { x with status := newStatus.getD x.status }) db.tasks }, .ok)
        else
          (db, .ok)

/-- `POST /api/submissions` (projects.js, submissions router): with a file
present and the task's project assigned to the acting solver, an existing
submission for the task is updated in place (new file, `status` reset to
`"pending"`), otherwise a new one is created with the schema default
`status = "pending"`; either way the task is forced to `"submitted"`. -/
def createSubmission (db : DB) (actor : User) (tid : Nat) (hasFile : Bool)
    (fileRef : Nat) : DB × Resp :=
  if actor.role ≠ "problem_solver" then (db, .err 403 "Not authorized")
  else if hasFile = false then (db, .err 400 "ZIP file is required")
  else
    match db.tasks.find? (fun t => t.id == tid) with
    | none => (db, .err 404 "Task not found")
    | some t =>
      match db.projects.find? (fun p => p.id == t.projectId) with
      | none => (db, .err 500 "Server error")
      | some p =>
        if p.assignedSolverId ≠ some actor.id then (db, .err 403 "Not authorized")
        else
          match db.submissions.find? (fun s => s.taskId == tid) with
          | some _ =>
            ({ db with
                submissions := updWhere (fun s => s.taskId == tid)
                  (fun s => { s with fileRef := fileRef, status := "pending" })
                  db.submissions,
                tasks := updWhere (fun x => x.id == tid)
                  (fun x => { x with status := "submitted" }) db.tasks }, .ok)
          | none =>
            ({ db with
                submissions := db.submissions ++
                  [⟨db.nextId, tid, t.projectId, actor.id, fileRef, "pending", false⟩],
                tasks := updWhere (fun x => x.id == tid)
                  (fun x => { x with status := "submitted" }) db.tasks,
                nextId := db.nextId + 1 }, .ok)

/-- `PUT /api/submissions/:id/review` (projects.js, submissions router):
the validator admits only `"accepted"`/`"rejected"`; no check is made on the
submission's current status. The submission row is updated first; then the
task is set to `"completed"`/`"rejected"`, and on accept the project is set
to `"completed"` when every task of the project (re-read after the task
update) is completed and there is at least one. A missing task row makes
the `prisma.task.update` throw after the submission update has already been
applied (the catch-all 500 path). -/
def reviewSubmission (db : DB) (actor : User) (sid : Nat) (dec : String) : DB × Resp :=
  if actor.role ≠ "buyer" then (db, .err 403 "Not authorized")
  else if ¬ (dec = "accepted" ∨ dec = "rejected") then
    (db, .err 400 "Status must be accepted or rejected")
  else
    match db.submissions.find? (fun s => s.id == sid) with
    | none => (db, .err 404 "Submission not found")
    | some s =>
      match db.projects.find? (fun p => p.id == s.projectId) with
      | none => (db, .err 500 "Server error")
      | some p =>
        if p.buyerId ≠ actor.id then (db, .err 403 "Not authorized")
        else
          let subs := updWhere (fun x => x.id == sid)
            (fun x => { x with status := dec, reviewed := true }) db.submissions
          if db.tasks.any (fun t => t.id == s.taskId) then
            if dec = "accepted" then
              let tasks := updWhere (fun t => t.id == s.taskId)
                (fun t => { t with status := "completed" }) db.tasks
              let allTasks := tasks.filter (fun t => t.projectId == s.projectId)
              let projects :=
                if (allTasks.all fun t => t.status == "completed") ∧ 0 < allTasks.length then
                  updWhere (fun q => q.id == s.projectId)
                    (fun q => { q with status := "completed" }) db.projects
                else db.projects
              ({ db with submissions := subs, tasks := tasks, projects := projects }, .ok)
            else
              ({ db with
                  submissions := subs,
                  tasks := updWhere (fun t => t.id == s.taskId)
                    (fun t => { t with status := "rejected" }) db.tasks }, .ok)
          else
            ({ db with submissions := subs }, .err 500 "Server error")

/-- `PUT /api/users/:id/assign-buyer` (tasks.js, users router): admin sets the
target user's role to `"buyer"`; `P2025` (no such row) maps to 404. There is
no check that the target differs from the acting admin. -/
def assignBuyer (db : DB) (actor : User) (uid : Nat) : DB × Resp :=
  if actor.role ≠ "admin" then (db, .err 403 "Not authorized")
  else if db.users.any (fun u => u.id == uid) then
    ({ db with
        users := updWhere (fun u => u.id == uid)
          (fun u => { u with role := "buyer" }) db.users }, .ok)
  else (db, .err 404 "User not found")

/-- One state transition of the system: some actor runs one of the modelled
route handlers with arbitrary parameters. -/
inductive Step : DB → DB → Prop where
  | newProject (db : DB) (actor : User) : Step db (createProject db actor).1
  | assign (db : DB) (actor : User) (pid sid : Nat) :
      Step db (assignSolver db actor pid sid).1
  | newRequest (db : DB) (actor : User) (pid : Nat) :
      Step db (createRequest db actor pid).1
  | newTask (db : DB) (actor : User) (pid : Nat) :
      Step db (createTask db actor pid).1
  | updTask (db : DB) (actor : User) (tid : Nat) (st : Option String) :
      Step db (updateTask db actor tid st).1
  | submit (db : DB) (actor : User) (tid : Nat) (hasFile : Bool) (fileRef : Nat) :
      Step db (createSubmission db actor tid hasFile fileRef).1
  | review (db : DB) (actor : User) (sid : Nat) (dec : String) :
      Step db (reviewSubmission db actor sid dec).1
  | promote (db : DB) (actor : User) (uid : Nat) :
      Step db (assignBuyer db actor uid).1

def Reachable : DB → DB → Prop := Relation.ReflTransGen Step

/-- Structural well-formedness of a database state: project ids are distinct
and below the fresh-id counter, task project references are below the
counter, every project is `"open"` exactly when unassigned, and every
project that has a task is assigned. It holds of any initial state with no
projects or tasks and is preserved by every handler. -/
def InvDB (db : DB) : Prop :=
  db.projects.Pairwise (fun a b => a.id ≠ b.id) ∧
  (∀ p ∈ db.projects, p.id < db.nextId) ∧
  (∀ t ∈ db.tasks, t.projectId < db.nextId) ∧
  (∀ p ∈ db.projects, (p.status = "open" ↔ p.assignedSolverId = none)) ∧
  (∀ t ∈ db.tasks, ∀ p ∈ db.projects, p.id = t.projectId → p.assignedSolverId ≠ none)

instance (db : DB) : Decidable (InvDB db) := by
  unfold InvDB
  infer_instance

/-- The response both duplicate-request paths of `POST /api/requests` produce
(the `Conflict` kind of the specification's error taxonomy). -/
def conflictResp : Resp := Resp.err 400 "Request already exists"

/-! Concrete states used to exercise the handlers: a cast of one admin, one
buyer and two problem solvers, and the states of the workflow scenario
(create a project, two requests, assignment, a task, a submission, a
review). -/

def uAdmin : User := ⟨0, "admin"⟩

def uBuyer : User := ⟨1, "buyer"⟩

def uSolver : User := ⟨2, "problem_solver"⟩

def uSolver2 : User := ⟨3, "problem_solver"⟩

def exDB0 : DB := ⟨[uAdmin, uBuyer, uSolver, uSolver2], [], [], [], [], 10⟩

def exDB1 : DB := (createProject exDB0 uBuyer).1

def exDB2 : DB := (createRequest exDB1 uSolver 10).1

def exDB3 : DB := (createRequest exDB2 uSolver2 10).1

def exDB4 : DB := (assignSolver exDB3 uBuyer 10 2).1

def exDB5 : DB := (createTask exDB4 uSolver 10).1

def exDB6 : DB := (createSubmission exDB5 uSolver 13 true 99).1

def exDB7 : DB := (reviewSubmission exDB6 uBuyer 14 "accepted").1

/-- A state whose only project is already assigned (to `uSolver2`, not
`"open"`) and that holds no requests at all; `uSolver` exists as a user, so
assigning to `uSolver` satisfies the `assignedSolverId` foreign key. -/
def exAssigned : DB :=
  ⟨[uBuyer, uSolver, uSolver2], [⟨0, 1, some 3, "assigned"⟩], [], [], [], 5⟩

/-- A state with an in-progress project assigned to `uSolver` and one
pending task. -/
def exTasked : DB :=
  ⟨[uBuyer, uSolver], [⟨0, 1, some 2, "in_progress"⟩], [], [⟨3, 0, 2, "pending"⟩], [], 5⟩

end Marketplace

namespace Marketplace

theorem mem_updWhere_iff {α : Type} {c : α → Bool} {f : α → α} {l : List α} {y : α} :
    y ∈ updWhere c f l ↔ ∃ x ∈ l, (if c x then f x else x) = y := by
  simp [updWhere]

theorem forall_mem_updWhere {α : Type} {c : α → Bool} {f : α → α} {l : List α} {P : α → Prop}
    (h : ∀ x ∈ l, P (if c x then f x else x)) : ∀ y ∈ updWhere c f l, P y := by
  intro y hy
  rcases mem_updWhere_iff.1 hy with ⟨x, hx, rfl⟩
  exact h x hx

theorem pairwise_key_updWhere {α : Type} (g : α → Nat) (c : α → Bool) (f : α → α)
    (hf : ∀ x, g (f x) = g x) {l : List α}
    (h : l.Pairwise (fun a b => g a ≠ g b)) :
    (updWhere c f l).Pairwise (fun a b => g a ≠ g b) := by
  unfold updWhere
  rw [List.pairwise_map]
  refine h.imp ?_
  intro a b hab
  by_cases ha : c a <;> by_cases hb : c b <;> simpa [ha, hb, hf] using hab

theorem pairwise_key_append {α : Type} (g : α → Nat) {l : List α} {a : α} {n : Nat}
    (h : l.Pairwise (fun x y => g x ≠ g y)) (hlt : ∀ x ∈ l, g x < n) (ha : g a = n) :
    (l ++ [a]).Pairwise (fun x y => g x ≠ g y) := by
  rw [List.pairwise_append]
  refine ⟨h, List.pairwise_singleton _ _, ?_⟩
  intro x hx y hy
  have hxlt := hlt x hx
  rcases List.mem_singleton.1 hy with rfl
  omega

theorem key_pairwise_unique {α : Type} (g : α → Nat) {l : List α}
    (hl : l.Pairwise (fun a b => g a ≠ g b)) {p x : α}
    (hp : p ∈ l) (hx : x ∈ l) (hk : g x = g p) : x = p := by
  induction l with
  | nil => simp at hp
  | cons a l ih =>
    rcases List.pairwise_cons.1 hl with ⟨ha, hl'⟩
    rcases List.mem_cons.1 hp with rfl | hp' <;> rcases List.mem_cons.1 hx with rfl | hx'
    · rfl
    · exact absurd hk.symm (ha x hx')
    · exact absurd hk (ha p hp')
    · exact ih hl' hp' hx'

theorem find?_map_comm {α : Type} (m : α → α) (q q' : α → Bool)
    (hq : ∀ x, q (m x) = q' x) (l : List α) :
    (l.map m).find? q = (l.find? q').map m := by
  induction l with
  | nil => rfl
  | cons a l ih =>
    by_cases h : q' a = true
    · have h1 : q (m a) = true := by rw [hq a]; exact h
      rw [List.map_cons, List.find?_cons_of_pos _ h1, List.find?_cons_of_pos _ h]
      rfl
    · have h1 : ¬ q (m a) = true := by rw [hq a]; exact h
      rw [List.map_cons, List.find?_cons_of_neg _ h1, List.find?_cons_of_neg _ h, ih]

theorem length_filter_map_congr {α : Type} (m : α → α) (q p : α → Bool)
    (h : ∀ x, q (m x) = p x) (l : List α) :
    ((l.map m).filter q).length = (l.filter p).length := by
  induction l with
  | nil => rfl
  | cons a l ih =>
    rw [List.map_cons, List.filter_cons, List.filter_cons, h a]
    cases hp : p a <;> simp [ih]

theorem inv_createProject (db : DB) (actor : User) (h : InvDB db) :
    InvDB (createProject db actor).1 := by
  obtain ⟨h1, h2, h3, h4, h5⟩ := h
  unfold createProject
  split
  · exact ⟨h1, h2, h3, h4, h5⟩
  · refine ⟨?_, ?_, ?_, ?_, ?_⟩
    · exact pairwise_key_append (fun p : Project => p.id) h1 h2 rfl
    · intro p hp
      rcases List.mem_append.1 hp with hp | hp
      · exact Nat.lt_succ_of_lt (h2 p hp)
      · rcases List.mem_singleton.1 hp with rfl
        exact Nat.lt_succ_self _
    · intro t ht
      exact Nat.lt_succ_of_lt (h3 t ht)
    · intro p hp
      rcases List.mem_append.1 hp with hp | hp
      · exact h4 p hp
      · rcases List.mem_singleton.1 hp with rfl
        simp
    · intro t ht p hp hid
      rcases List.mem_append.1 hp with hp | hp
      · exact h5 t ht p hp hid
      · rcases List.mem_singleton.1 hp with rfl
        have := h3 t ht
        simp only at hid
        omega

theorem inv_assignSolver (db : DB) (actor : User) (pid sid : Nat) (h : InvDB db) :
    InvDB (assignSolver db actor pid sid).1 := by
  obtain ⟨h1, h2, h3, h4, h5⟩ := h
  unfold assignSolver
  split
  · exact ⟨h1, h2, h3, h4, h5⟩
  · split
    · exact ⟨h1, h2, h3, h4, h5⟩
    · split
      · exact ⟨h1, h2, h3, h4, h5⟩
      split
      case isFalse => exact ⟨h1, h2, h3, h4, h5⟩
      · refine ⟨?_, ?_, h3, ?_, ?_⟩
        · refine pairwise_key_updWhere (fun p : Project => p.id) _ _ ?_ h1
          intro x
          rfl
        · refine forall_mem_updWhere ?_
          intro x hx
          by_cases hc : x.id == pid <;> simp only [hc, if_true, if_false] <;>
            exact h2 x hx
        · refine forall_mem_updWhere ?_
          intro x hx
          by_cases hc : x.id == pid <;> simp [hc]
          exact h4 x hx
        · intro t ht
          refine forall_mem_updWhere ?_
          intro x hx
          by_cases hc : x.id == pid <;> simp only [hc, if_true, if_false]
          · intro _
            simp
          · exact h5 t ht x hx

theorem inv_createRequest (db : DB) (actor : User) (pid : Nat) (h : InvDB db) :
    InvDB (createRequest db actor pid).1 := by
  obtain ⟨h1, h2, h3, h4, h5⟩ := h
  unfold createRequest
  repeat' split
  all_goals
    first
      | exact ⟨h1, h2, h3, h4, h5⟩
      | exact ⟨h1, fun p hp => Nat.lt_succ_of_lt (h2 p hp),
          fun t ht => Nat.lt_succ_of_lt (h3 t ht), h4, h5⟩

theorem inv_createTask (db : DB) (actor : User) (pid : Nat) (h : InvDB db) :
    InvDB (createTask db actor pid).1 := by
  obtain ⟨h1, h2, h3, h4, h5⟩ := h
  unfold createTask
  split
  · exact ⟨h1, h2, h3, h4, h5⟩
  split
  · exact ⟨h1, h2, h3, h4, h5⟩
  rename_i p hfind
  split
  · exact ⟨h1, h2, h3, h4, h5⟩
  rename_i solverId hsolver
  split
  · exact ⟨h1, h2, h3, h4, h5⟩
  rename_i hne
  have hp_mem : p ∈ db.projects := List.mem_of_find?_eq_some hfind
  have hp_id : p.id = pid := by simpa using List.find?_some hfind
  refine ⟨?_, ?_, ?_, ?_, ?_⟩
  · split
    · refine pairwise_key_updWhere (fun q : Project => q.id) _ _ ?_ h1
      intro x
      rfl
    · exact h1
  · split
    · refine forall_mem_updWhere ?_
      intro x hx
      by_cases hc : x.id == pid <;> simp only [hc, if_true, if_false] <;>
        exact Nat.lt_succ_of_lt (h2 x hx)
    · exact fun q hq => Nat.lt_succ_of_lt (h2 q hq)
  · intro t ht
    rcases List.mem_append.1 ht with ht | ht
    · exact Nat.lt_succ_of_lt (h3 t ht)
    · rcases List.mem_singleton.1 ht with rfl
      simp only
      have := h2 p hp_mem
      omega
  · split
    · refine forall_mem_updWhere ?_
      intro x hx
      by_cases hc : x.id == pid <;> simp only [hc, if_true, if_false]
      · have hx_eq : x = p := key_pairwise_unique (fun q : Project => q.id) h1 hp_mem hx
          (by simpa [hp_id] using hc)
        subst hx_eq
        simp [hsolver]
      · exact h4 x hx
    · exact h4
  · intro t ht
    have hsolve : ∀ q ∈ db.projects, q.id = t.projectId → q.assignedSolverId ≠ none := by
      rcases List.mem_append.1 ht with ht | ht
      · exact fun q hq => h5 t ht q hq
      · rcases List.mem_singleton.1 ht with rfl
        intro q hq hid
        have hid' : q.id = pid := hid
        have hq_eq : q = p := key_pairwise_unique (fun x : Project => x.id) h1 hp_mem hq
          (by simpa [hp_id] using hid')
        subst hq_eq
        simp [hsolver]
    split
    · refine forall_mem_updWhere ?_
      intro x hx
      by_cases hc : x.id == pid <;> simp only [hc, if_true, if_false]
      · intro hid
        have := hsolve x hx (by simpa using hid)
        simpa using this
      · exact hsolve x hx
    · exact hsolve

theorem inv_updateTask (db : DB) (actor : User) (tid : Nat) (st : Option String)
    (h : InvDB db) : InvDB (updateTask db actor tid st).1 := by
  obtain ⟨h1, h2, h3, h4, h5⟩ := h
  have tasksOK : ∀ (c : Task → Bool) (f : Task → Task),
      (∀ x, (f x).projectId = x.projectId) →
      InvDB { db with tasks := updWhere c f db.tasks } := by
    intro c f hf
    refine ⟨h1, h2, ?_, h4, ?_⟩
    · refine forall_mem_updWhere ?_
      intro x hx
      by_cases hc : c x <;> simp only [hc, if_true, if_false]
      · rw [hf]
        exact h3 x hx
      · exact h3 x hx
    · refine forall_mem_updWhere ?_
      intro x hx
      by_cases hc : c x <;> simp only [hc, if_true, if_false]
      · intro q hq hid
        exact h5 x hx q hq (hid.trans (hf x))
      · exact h5 x hx
  unfold updateTask
  repeat' split
  all_goals
    first
      | exact ⟨h1, h2, h3, h4, h5⟩
      | exact tasksOK _ _ (fun x => rfl)

theorem inv_createSubmission (db : DB) (actor : User) (tid : Nat) (hasFile : Bool)
    (fileRef : Nat) (h : InvDB db) :
    InvDB (createSubmission db actor tid hasFile fileRef).1 := by
  obtain ⟨h1, h2, h3, h4, h5⟩ := h
  have tasksOK : ∀ (subs : List Submission) (k : Nat), db.nextId ≤ k →
      InvDB { db with
        submissions := subs,
        tasks := updWhere (fun x => x.id == tid)
          (fun x => { x with status := "submitted" }) db.tasks,
        nextId := k } := by
    intro subs k hk
    refine ⟨h1, ?_, ?_, h4, ?_⟩
    · intro p hp
      exact Nat.lt_of_lt_of_le (h2 p hp) hk
    · refine forall_mem_updWhere ?_
      intro x hx
      by_cases hc : x.id == tid <;> simp only [hc, if_true, if_false] <;>
        exact Nat.lt_of_lt_of_le (h3 x hx) hk
    · refine forall_mem_updWhere ?_
      intro x hx
      by_cases hc : x.id == tid <;> simp only [hc, if_true, if_false] <;>
        exact h5 x hx
  unfold createSubmission
  repeat' split
  all_goals
    first
      | exact ⟨h1, h2, h3, h4, h5⟩
      | exact tasksOK _ _ (Nat.le_refl _)
      | exact tasksOK _ _ (Nat.le_succ _)

theorem inv_assignBuyer (db : DB) (actor : User) (uid : Nat) (h : InvDB db) :
    InvDB (assignBuyer db actor uid).1 := by
  obtain ⟨h1, h2, h3, h4, h5⟩ := h
  unfold assignBuyer
  repeat' split
  all_goals exact ⟨h1, h2, h3, h4, h5⟩

theorem inv_reviewSubmission (db : DB) (actor : User) (sid : Nat) (dec : String)
    (h : InvDB db) : InvDB (reviewSubmission db actor sid dec).1 := by
  obtain ⟨h1, h2, h3, h4, h5⟩ := h
  have tasksOK : ∀ (subs : List Submission) (c : Task → Bool) (f : Task → Task),
      (∀ x, (f x).projectId = x.projectId) →
      InvDB { db with
        submissions := subs,
        tasks := updWhere c f db.tasks } := by
    intro subs c f hf
    refine ⟨h1, h2, ?_, h4, ?_⟩
    · refine forall_mem_updWhere ?_
      intro x hx
      by_cases hc : c x <;> simp only [hc, if_true, if_false]
      · rw [hf]
        exact h3 x hx
      · exact h3 x hx
    · refine forall_mem_updWhere ?_
      intro x hx
      by_cases hc : c x <;> simp only [hc, if_true, if_false]
      · intro q hq hid
        exact h5 x hx q hq (hid.trans (hf x))
      · exact h5 x hx
  unfold reviewSubmission
  split
  · exact ⟨h1, h2, h3, h4, h5⟩
  split
  · exact ⟨h1, h2, h3, h4, h5⟩
  split
  · exact ⟨h1, h2, h3, h4, h5⟩
  rename_i s hsfind
  split
  · exact ⟨h1, h2, h3, h4, h5⟩
  rename_i p hpfind
  split
  · exact ⟨h1, h2, h3, h4, h5⟩
  split
  · split
    · -- accepted: the project list may be rewritten when all tasks are done
      dsimp only
      split
      · rename_i hcond
        have hex : ∃ t₀ ∈ db.tasks, t₀.projectId = s.projectId := by
          obtain ⟨-, hlen⟩ := hcond
          obtain ⟨t', ht'⟩ := List.exists_mem_of_length_pos hlen
          obtain ⟨ht'mem, ht'pid⟩ := List.mem_filter.1 ht'
          rcases mem_updWhere_iff.1 ht'mem with ⟨t₀, ht₀, rfl⟩
          refine ⟨t₀, ht₀, ?_⟩
          by_cases hc : t₀.id == s.taskId <;> simp only [hc, if_true, if_false] at ht'pid <;>
            simpa using ht'pid
        obtain ⟨t₀, ht₀, ht₀pid⟩ := hex
        refine ⟨?_, ?_, ?_, ?_, ?_⟩
        · refine pairwise_key_updWhere (fun q : Project => q.id) _ _ ?_ h1
          intro x
          rfl
        · refine forall_mem_updWhere ?_
          intro x hx
          by_cases hc : x.id == s.projectId <;> simp only [hc, if_true, if_false] <;>
            exact h2 x hx
        · refine forall_mem_updWhere ?_
          intro x hx
          by_cases hc : x.id == s.taskId <;> simp only [hc, if_true, if_false] <;>
            exact h3 x hx
        · refine forall_mem_updWhere ?_
          intro x hx
          by_cases hc : x.id == s.projectId <;> simp only [hc, if_true, if_false]
          · have hxs : x.assignedSolverId ≠ none := by
              refine h5 t₀ ht₀ x hx ?_
              rw [ht₀pid]
              simpa using hc
            constructor
            · intro habs
              exact absurd habs (by simp)
            · intro habs
              exact absurd habs hxs
          · exact h4 x hx
        · intro t ht
          rcases mem_updWhere_iff.1 ht with ⟨x, hx, rfl⟩
          refine forall_mem_updWhere ?_
          intro q hq
          by_cases hcq : q.id == s.projectId <;> simp only [hcq, if_true, if_false] <;>
            by_cases hcx : x.id == s.taskId <;> simp only [hcx, if_true, if_false] <;>
            exact h5 x hx q hq
      · exact tasksOK _ _ _ (fun x => rfl)
    · exact tasksOK _ _ _ (fun x => rfl)
  · exact ⟨h1, h2, h3, h4, h5⟩

theorem inv_step {db db' : DB} (h : Step db db') (hinv : InvDB db) : InvDB db' := by
  cases h with
  | newProject actor => exact inv_createProject db actor hinv
  | assign actor pid sid => exact inv_assignSolver db actor pid sid hinv
  | newRequest actor pid => exact inv_createRequest db actor pid hinv
  | newTask actor pid => exact inv_createTask db actor pid hinv
  | updTask actor tid st => exact inv_updateTask db actor tid st hinv
  | submit actor tid hasFile fileRef =>
      exact inv_createSubmission db actor tid hasFile fileRef hinv
  | review actor sid dec => exact inv_reviewSubmission db actor sid dec hinv
  | promote actor uid => exact inv_assignBuyer db actor uid hinv

theorem inv_reachable {db db' : DB} (h : InvDB db) (hr : Reachable db db') :
    InvDB db' := by
  induction hr with
  | refl => exact h
  | tail _ hstep ih => exact inv_step hstep ih

theorem length_filter_and_not {α : Type} (p q : α → Bool) (l : List α) :
    (l.filter fun x => p x && q x).length + (l.filter fun x => p x && !q x).length
      = (l.filter p).length := by
  induction l with
  | nil => rfl
  | cons a l ih =>
    rw [List.filter_cons, List.filter_cons, List.filter_cons]
    cases hp : p a <;> cases hq : q a <;> simp [hp, hq] <;> omega

/-- Claim C2: for all projects, `status == "open"` holds if and only if
`assignedSolverId` is unset, in every state reachable by any sequence of the
modelled operations (project creation, assignSolver, request creation, task
creation, task update, submission, review, role assignment) from a
well-formed state — in particular from any state whose projects all satisfy
the biconditional, such as one holding a freshly created project. -/
theorem project_open_iff_unassigned_invariant (db db' : DB)
    (hinv : InvDB db) (hr : Reachable db db') :
    ∀ p ∈ db'.projects, (p.status = "open" ↔ p.assignedSolverId = none) := by
  obtain ⟨-, -, -, h4, -⟩ := inv_reachable hinv hr
  exact h4

theorem project_open_iff_unassigned_invariant_witness :
    (⟨10, 1, some 2, "assigned"⟩ : Project) ∈ exDB4.projects ∧
    ((⟨10, 1, some 2, "assigned"⟩ : Project).status = "open" ↔
      (⟨10, 1, some 2, "assigned"⟩ : Project).assignedSolverId = none) :=
  ⟨by decide,
    project_open_iff_unassigned_invariant exDB0 exDB4 (by decide)
      (Relation.ReflTransGen.head (Step.newProject exDB0 uBuyer)
        (Relation.ReflTransGen.head (Step.newRequest exDB1 uSolver 10)
          (Relation.ReflTransGen.head (Step.newRequest exDB2 uSolver2 10)
            (Relation.ReflTransGen.single (Step.assign exDB3 uBuyer 10 2)))))
      ⟨10, 1, some 2, "assigned"⟩ (by decide)⟩

theorem find?_updWhere_key {α : Type} (g : α → Nat) (c : α → Bool) (f : α → α) (i : Nat)
    (hf : ∀ x, g (f x) = g x) (l : List α) :
    (updWhere c f l).find? (fun x => g x == i)
      = (l.find? (fun x => g x == i)).map (fun x => if c x then f x else x) := by
  unfold updWhere
  refine find?_map_comm _ _ _ ?_ l
  intro x
  by_cases h : c x <;> simp [h, hf]

/-- Claim C1 counterexample: in `exAssigned` the only project has status
`"assigned"` (not `"open"`) and there is no request at all; the chosen
solver `uSolver` is an existing user, so the real store accepts the update.
`assignSolver` succeeds and rewrites the project's assignment — the handler
checks neither precondition and does change state. -/
theorem assignSolver_unchecked_counterexample :
    (∀ p ∈ exAssigned.projects, p.status ≠ "open") ∧
    exAssigned.requests = [] ∧
    (∃ u ∈ exAssigned.users, u.id = uSolver.id) ∧
    (assignSolver exAssigned uBuyer 0 uSolver.id).2 = Resp.ok ∧
    (assignSolver exAssigned uBuyer 0 uSolver.id).1.projects
      = [⟨0, 1, some 2, "assigned"⟩] := by
  decide

/-- Claim C1 (amended): `assignSolver` performs no check of `project.status`
and none of request existence. With a buyer actor it succeeds exactly when
the project exists, the actor owns it, and the chosen solver id references
an existing user (the `assignedSolverId` foreign key) — regardless of the
project's status and of the requests — and in every failure case (project
missing, not owned, or foreign-key violation answered with 500) the state
is unchanged. -/
theorem assignSolver_no_precondition_checks (db : DB) (actor : User) (pid sid : Nat)
    (hrole : actor.role = "buyer") :
    ((assignSolver db actor pid sid).2 = Resp.ok ↔
      (∃ u ∈ db.users, u.id = sid) ∧
      ∃ p, db.projects.find? (fun q => q.id == pid) = some p ∧ p.buyerId = actor.id) ∧
    ((assignSolver db actor pid sid).2 ≠ Resp.ok → (assignSolver db actor pid sid).1 = db) := by
  unfold assignSolver
  split
  · rename_i hr
    exact absurd hrole hr
  split
  · rename_i hfind
    refine ⟨?_, fun _ => rfl⟩
    simp [hfind]
  rename_i p hfind
  split
  · rename_i hne
    refine ⟨?_, fun _ => rfl⟩
    simp only [hfind]
    constructor
    · intro habs
      simp at habs
    · rintro ⟨-, q, hq, hqb⟩
      rw [Option.some_inj] at hq
      exact absurd (hq ▸ hqb) hne
  rename_i hown
  split
  · rename_i hany
    refine ⟨?_, fun habs => absurd rfl habs⟩
    refine iff_of_true rfl ⟨?_, p, hfind, not_not.1 hown⟩
    obtain ⟨u, hu, hus⟩ := List.any_eq_true.1 hany
    exact ⟨u, hu, by simpa using hus⟩
  · rename_i hany
    refine ⟨?_, fun _ => rfl⟩
    constructor
    · intro habs
      simp at habs
    · rintro ⟨⟨u, hu, hus⟩, -⟩
      exact absurd (List.any_eq_true.2 ⟨u, hu, by simp [hus]⟩) hany

theorem assignSolver_no_precondition_checks_witness :
    ((assignSolver exAssigned uBuyer 0 2).2 = Resp.ok ↔
      (∃ u ∈ exAssigned.users, u.id = 2) ∧
      ∃ p, exAssigned.projects.find? (fun q => q.id == 0) = some p ∧
        p.buyerId = uBuyer.id) ∧
    ((assignSolver exAssigned uBuyer 0 2).2 ≠ Resp.ok →
      (assignSolver exAssigned uBuyer 0 2).1 = exAssigned) :=
  assignSolver_no_precondition_checks exAssigned uBuyer 0 2 rfl

/-- The two `updateMany` calls of `assignSolver`, composed, act pointwise:
the chosen solver's requests for the project become accepted, the other
requests for the project become rejected, everything else is untouched. -/
theorem assign_requests_as_map (pid sid : Nat) (rs : List Request) :
    updWhere (fun r => r.projectId == pid && r.solverId != sid)
      (fun r => { r with status := "rejected" })
      (updWhere (fun r => r.projectId == pid && r.solverId == sid)
        (fun r => { r with status := "accepted" }) rs)
    = rs.map (fun r =>
        if r.projectId == pid && r.solverId == sid then { r with status := "accepted" }
        else if r.projectId == pid then { r with status := "rejected" }
        else r) := by
  unfold updWhere
  rw [List.map_map]
  refine List.map_congr_left ?_
  intro r _
  by_cases h1 : r.projectId == pid <;> by_cases h2 : r.solverId == sid <;>
    simp [h1, h2, Function.comp, bne]

/-- Claim C3: on an open project owned by the acting buyer whose pending
requests include exactly one from the chosen solver, `assignSolver` succeeds,
sets the project to `"assigned"` with `assignedSolverId = chosenSolverId`,
accepts exactly the chosen solver's request and rejects every other request
of the project, leaving exactly 1 accepted and N − 1 rejected requests among
the project's N requests. The hypothesis `hreqFK` is the referential
integrity of the requests table (`requests_solverId_fkey`): every request's
solver references an existing user — it makes the chosen solver exist, so
the `assignedSolverId` foreign key is satisfied. -/
theorem assignSolver_success_spec (db : DB) (actor : User) (pid sid : Nat) (p : Project)
    (hrole : actor.role = "buyer")
    (hfind : db.projects.find? (fun q => q.id == pid) = some p)
    (hown : p.buyerId = actor.id)
    (_hopen : p.status = "open")
    (_hpend : ∀ r ∈ db.requests, r.projectId = pid → r.status = "pending")
    (hone : (db.requests.filter (fun r => r.projectId == pid && r.solverId == sid)).length = 1)
    (hreqFK : ∀ r ∈ db.requests, ∃ u ∈ db.users, u.id = r.solverId) :
    (assignSolver db actor pid sid).2 = Resp.ok ∧
    (assignSolver db actor pid sid).1.projects.find? (fun q => q.id == pid)
      = some { p with assignedSolverId := some sid, status := "assigned" } ∧
    (∀ r ∈ (assignSolver db actor pid sid).1.requests, r.projectId = pid →
      r.status = (if r.solverId = sid then "accepted" else "rejected")) ∧
    ((assignSolver db actor pid sid).1.requests.filter
      (fun r => r.projectId == pid && r.status == "accepted")).length = 1 ∧
    ((assignSolver db actor pid sid).1.requests.filter
      (fun r => r.projectId == pid && r.status == "rejected")).length
      = (db.requests.filter (fun r => r.projectId == pid)).length - 1 := by
  have hp_id : p.id = pid := by simpa using List.find?_some hfind
  have hrneg : ¬ actor.role ≠ "buyer" := by simp [hrole]
  have hbneg : ¬ p.buyerId ≠ actor.id := by simp [hown]
  have hex : ∃ r ∈ db.requests, r.projectId = pid ∧ r.solverId = sid := by
    have hlen : 0 < (db.requests.filter
        (fun r => r.projectId == pid && r.solverId == sid)).length := by
      omega
    obtain ⟨r, hr⟩ := List.exists_mem_of_length_pos hlen
    obtain ⟨hrm, hrp⟩ := List.mem_filter.1 hr
    simp only [Bool.and_eq_true, beq_iff_eq] at hrp
    exact ⟨r, hrm, hrp.1, hrp.2⟩
  have husers : (db.users.any fun u => u.id == sid) = true := by
    obtain ⟨r, hr, _, hrs⟩ := hex
    obtain ⟨u, hu, huid⟩ := hreqFK r hr
    exact List.any_eq_true.2 ⟨u, hu, by simp [huid, hrs]⟩
  have hred : assignSolver db actor pid sid
      = ({ db with
            projects := updWhere (fun q => q.id == pid)
              (fun q => { q with assignedSolverId := some sid, status := "assigned" })
              db.projects,
            requests := updWhere (fun r => r.projectId == pid && r.solverId != sid)
              (fun r => { r with status := "rejected" })
              (updWhere (fun r => r.projectId == pid && r.solverId == sid)
                (fun r => { r with status := "accepted" }) db.requests) }, Resp.ok) := by
    unfold assignSolver
    rw [if_neg hrneg, hfind]
    dsimp only
    rw [if_neg hbneg, if_pos husers]
  have hproj : (assignSolver db actor pid sid).1.projects
      = updWhere (fun q => q.id == pid)
          (fun q => { q with assignedSolverId := some sid, status := "assigned" })
          db.projects := by
    rw [hred]
  have hreq : (assignSolver db actor pid sid).1.requests
      = updWhere (fun r => r.projectId == pid && r.solverId != sid)
          (fun r => { r with status := "rejected" })
          (updWhere (fun r => r.projectId == pid && r.solverId == sid)
            (fun r => { r with status := "accepted" }) db.requests) := by
    rw [hred]
  have hresp : (assignSolver db actor pid sid).2 = Resp.ok := by rw [hred]
  refine ⟨hresp, ?_, ?_, ?_, ?_⟩
  · rw [hproj,
      find?_updWhere_key (fun q : Project => q.id) (fun q => q.id == pid)
        (fun q => { q with assignedSolverId := some sid, status := "assigned" }) pid
        (fun x => rfl) db.projects,
      hfind]
    simp [hp_id]
  · rw [hreq, assign_requests_as_map]
    intro r hr hrp
    rcases List.mem_map.1 hr with ⟨x, hx, rfl⟩
    by_cases h1 : x.projectId == pid <;> by_cases h2 : x.solverId == sid <;>
      simp_all
  · rw [hreq, assign_requests_as_map]
    have hcongr := length_filter_map_congr
      (fun r : Request =>
        if r.projectId == pid && r.solverId == sid then { r with status := "accepted" }
        else if r.projectId == pid then { r with status := "rejected" }
        else r)
      (fun r => r.projectId == pid && r.status == "accepted")
      (fun r => r.projectId == pid && r.solverId == sid)
      (by
        intro x
        by_cases h1 : x.projectId == pid <;> by_cases h2 : x.solverId == sid <;>
          simp [h1, h2])
      db.requests
    rw [hcongr]
    exact hone
  · rw [hreq, assign_requests_as_map]
    have hcongr := length_filter_map_congr
      (fun r : Request =>
        if r.projectId == pid && r.solverId == sid then { r with status := "accepted" }
        else if r.projectId == pid then { r with status := "rejected" }
        else r)
      (fun r => r.projectId == pid && r.status == "rejected")
      (fun r => r.projectId == pid && !(r.solverId == sid))
      (by
        intro x
        by_cases h1 : x.projectId == pid <;> by_cases h2 : x.solverId == sid <;>
          simp [h1, h2])
      db.requests
    rw [hcongr]
    have hsplit := length_filter_and_not (fun r : Request => r.projectId == pid)
      (fun r => r.solverId == sid) db.requests
    omega

theorem assignSolver_success_spec_witness :
    (assignSolver exDB3 uBuyer 10 2).2 = Resp.ok ∧
    (assignSolver exDB3 uBuyer 10 2).1.projects.find? (fun q => q.id == 10)
      = some ⟨10, 1, some 2, "assigned"⟩ ∧
    (∀ r ∈ (assignSolver exDB3 uBuyer 10 2).1.requests, r.projectId = 10 →
      r.status = (if r.solverId = 2 then "accepted" else "rejected")) ∧
    ((assignSolver exDB3 uBuyer 10 2).1.requests.filter
      (fun r => r.projectId == 10 && r.status == "accepted")).length = 1 ∧
    ((assignSolver exDB3 uBuyer 10 2).1.requests.filter
      (fun r => r.projectId == 10 && r.status == "rejected")).length
      = (exDB3.requests.filter (fun r => r.projectId == 10)).length - 1 :=
  assignSolver_success_spec exDB3 uBuyer 10 2 ⟨10, 1, none, "open"⟩ rfl (by decide) rfl rfl
    (by decide) (by decide) (by decide)

/-- Claim C7: `createTask` fails (leaving the state unchanged) when the
project's `assignedSolverId` is unset, and when it is set but differs from
the creator; on success the new task is appended with status `"pending"`,
and the project's status moves from `"assigned"` to `"in_progress"` while
any other status (e.g. already `"in_progress"` or `"completed"`) is kept. -/
theorem createTask_spec (db : DB) (actor : User) (pid : Nat) (p : Project)
    (hrole : actor.role = "problem_solver")
    (hfind : db.projects.find? (fun q => q.id == pid) = some p) :
    (p.assignedSolverId = none →
      createTask db actor pid = (db, Resp.err 400 "Project is not assigned yet")) ∧
    (∀ s, p.assignedSolverId = some s → s ≠ actor.id →
      createTask db actor pid
        = (db, Resp.err 403 "Not authorized to create tasks for this project")) ∧
    (p.assignedSolverId = some actor.id →
      (createTask db actor pid).2 = Resp.ok ∧
      (createTask db actor pid).1.tasks
        = db.tasks ++ [⟨db.nextId, pid, actor.id, "pending"⟩] ∧
      (createTask db actor pid).1.projects.find? (fun q => q.id == pid)
        = some { p with
            status := if p.status = "assigned" then "in_progress" else p.status }) := by
  have hp_id : p.id = pid := by simpa using List.find?_some hfind
  have hrneg : ¬ actor.role ≠ "problem_solver" := by simp [hrole]
  refine ⟨?_, ?_, ?_⟩
  · intro hnone
    unfold createTask
    rw [if_neg hrneg, hfind]
    dsimp only
    rw [hnone]
  · intro s hs hne
    unfold createTask
    rw [if_neg hrneg, hfind]
    dsimp only
    rw [hs]
    dsimp only
    rw [if_pos hne]
  · intro hmine
    have hred : createTask db actor pid
        = ({ db with
              tasks := db.tasks ++ [⟨db.nextId, pid, actor.id, "pending"⟩],
              projects :=
                if p.status = "assigned" then
                  updWhere (fun q => q.id == pid)
                    (fun q => { q with status := "in_progress" }) db.projects
                else db.projects,
              nextId := db.nextId + 1 }, Resp.ok) := by
      unfold createTask
      rw [if_neg hrneg, hfind]
      dsimp only
      rw [hmine]
      dsimp only
      rw [if_neg (by simp)]
    have htasks : (createTask db actor pid).1.tasks
        = db.tasks ++ [⟨db.nextId, pid, actor.id, "pending"⟩] := by
      rw [hred]
    have hprojs : (createTask db actor pid).1.projects
        = if p.status = "assigned" then
            updWhere (fun q => q.id == pid)
              (fun q => { q with status := "in_progress" }) db.projects
          else db.projects := by
      rw [hred]
    have hresp : (createTask db actor pid).2 = Resp.ok := by rw [hred]
    refine ⟨hresp, htasks, ?_⟩
    rw [hprojs]
    by_cases hstat : p.status = "assigned"
    · rw [if_pos hstat, if_pos hstat,
        find?_updWhere_key (fun q : Project => q.id) (fun q => q.id == pid)
          (fun q => { q with status := "in_progress" }) pid (fun x => rfl) db.projects,
        hfind]
      simp [hp_id]
    · rw [if_neg hstat, if_neg hstat, hfind]

theorem createTask_spec_witness :
    ((⟨10, 1, some 2, "assigned"⟩ : Project).assignedSolverId = none →
      createTask exDB4 uSolver 10 = (exDB4, Resp.err 400 "Project is not assigned yet")) ∧
    (∀ s, (⟨10, 1, some 2, "assigned"⟩ : Project).assignedSolverId = some s →
      s ≠ uSolver.id →
      createTask exDB4 uSolver 10
        = (exDB4, Resp.err 403 "Not authorized to create tasks for this project")) ∧
    ((⟨10, 1, some 2, "assigned"⟩ : Project).assignedSolverId = some uSolver.id →
      (createTask exDB4 uSolver 10).2 = Resp.ok ∧
      (createTask exDB4 uSolver 10).1.tasks
        = exDB4.tasks ++ [⟨exDB4.nextId, 10, uSolver.id, "pending"⟩] ∧
      (createTask exDB4 uSolver 10).1.projects.find? (fun q => q.id == 10)
        = some { (⟨10, 1, some 2, "assigned"⟩ : Project) with
            status := if (⟨10, 1, some 2, "assigned"⟩ : Project).status = "assigned"
              then "in_progress"
              else (⟨10, 1, some 2, "assigned"⟩ : Project).status }) :=
  createTask_spec exDB4 uSolver 10 ⟨10, 1, some 2, "assigned"⟩ rfl (by decide)

/-- Claim C5 counterexample: in `exTasked` the acting solver requests the
(buyer-only) status `"completed"` for their pending task; the handler
answers success and leaves the task's status unchanged — the out-of-list
transition is silently ignored, not rejected with an error result. -/
theorem updateTask_silent_ignore_counterexample :
    "completed" ∈ taskStatuses ∧
    (updateTask exTasked uSolver 3 (some "completed")).2 = Resp.ok ∧
    (updateTask exTasked uSolver 3 (some "completed")).1.tasks
      = [⟨3, 0, 2, "pending"⟩] := by
  decide

/-- Claim C5 (amended): the validator rejects with an error only a status
outside the global five-value enumeration. Within the enumeration, a
solver's requested status is applied only when it lies in
{pending, in_progress, submitted} and a buyer's only when it lies in
{completed, rejected}; a requested status outside the actor's own list is
silently dropped — the update succeeds and the task keeps its previous
status. -/
theorem updateTask_role_allowlists (db : DB) (actor : User) (tid : Nat) (s : String)
    (t : Task) (p : Project)
    (htfind : db.tasks.find? (fun x => x.id == tid) = some t)
    (hpfind : db.projects.find? (fun q => q.id == t.projectId) = some p) :
    (s ∉ taskStatuses →
      updateTask db actor tid (some s) = (db, Resp.err 400 "Invalid status value")) ∧
    (s ∈ taskStatuses → actor.role = "problem_solver" →
      p.assignedSolverId = some actor.id →
      (updateTask db actor tid (some s)).2 = Resp.ok ∧
      (updateTask db actor tid (some s)).1.tasks.find? (fun x => x.id == tid)
        = some { t with status :=
            if s = "pending" ∨ s = "in_progress" ∨ s = "submitted" then s
            else t.status }) ∧
    (s ∈ taskStatuses → actor.role = "buyer" → p.buyerId = actor.id →
      (updateTask db actor tid (some s)).2 = Resp.ok ∧
      (updateTask db actor tid (some s)).1.tasks.find? (fun x => x.id == tid)
        = some { t with status :=
            if s = "completed" ∨ s = "rejected" then s else t.status }) := by
  refine ⟨?_, ?_, ?_⟩
  · intro hout
    unfold updateTask
    rw [if_pos]
    simp only [statusValid]
    simpa using hout
  · intro hin hrole hmine
    have hvalid : ¬ statusValid (some s) = false := by
      simp only [statusValid]
      simpa using hin
    have hred : updateTask db actor tid (some s)
        = ({ db with
              tasks := updWhere (fun x => x.id == tid)
                (fun x => { x with status :=
                  (if s = "pending" ∨ s = "in_progress" ∨ s = "submitted" then some s
                    else none).getD x.status }) db.tasks }, Resp.ok) := by
      unfold updateTask
      rw [if_neg hvalid, htfind]
      dsimp only
      rw [hpfind]
      dsimp only
      rw [if_pos hrole, if_neg (by simp [hmine])]
    have htasks : (updateTask db actor tid (some s)).1.tasks
        = updWhere (fun x => x.id == tid)
            (fun x => { x with status :=
              (if s = "pending" ∨ s = "in_progress" ∨ s = "submitted" then some s
                else none).getD x.status }) db.tasks := by
      rw [hred]
    have hresp : (updateTask db actor tid (some s)).2 = Resp.ok := by rw [hred]
    refine ⟨hresp, ?_⟩
    rw [htasks,
      find?_updWhere_key (fun x : Task => x.id) (fun x => x.id == tid)
        (fun x => { x with status :=
          (if s = "pending" ∨ s = "in_progress" ∨ s = "submitted" then some s
            else none).getD x.status }) tid (fun x => rfl) db.tasks,
      htfind]
    have ht_id : t.id = tid := by simpa using List.find?_some htfind
    by_cases hcase : s = "pending" ∨ s = "in_progress" ∨ s = "submitted" <;>
      simp [ht_id, hcase]
  · intro hin hrole hown
    have hvalid : ¬ statusValid (some s) = false := by
      simp only [statusValid]
      simpa using hin
    have hrole2 : ¬ actor.role = "problem_solver" := by
      rw [hrole]
      decide
    have hred : updateTask db actor tid (some s)
        = ({ db with
              tasks := updWhere (fun x => x.id == tid)
                (fun x => { x with status :=
                  (if s = "completed" ∨ s = "rejected" then some s
                    else none).getD x.status }) db.tasks }, Resp.ok) := by
      unfold updateTask
      rw [if_neg hvalid, htfind]
      dsimp only
      rw [hpfind]
      dsimp only
      rw [if_neg hrole2, if_pos hrole, if_neg (by simp [hown])]
    have htasks : (updateTask db actor tid (some s)).1.tasks
        = updWhere (fun x => x.id == tid)
            (fun x => { x with status :=
              (if s = "completed" ∨ s = "rejected" then some s
                else none).getD x.status }) db.tasks := by
      rw [hred]
    have hresp : (updateTask db actor tid (some s)).2 = Resp.ok := by rw [hred]
    refine ⟨hresp, ?_⟩
    rw [htasks,
      find?_updWhere_key (fun x : Task => x.id) (fun x => x.id == tid)
        (fun x => { x with status :=
          (if s = "completed" ∨ s = "rejected" then some s
            else none).getD x.status }) tid (fun x => rfl) db.tasks,
      htfind]
    have ht_id : t.id = tid := by simpa using List.find?_some htfind
    by_cases hcase : s = "completed" ∨ s = "rejected" <;>
      simp [ht_id, hcase]

theorem updateTask_role_allowlists_witness :
    ("completed" ∉ taskStatuses →
      updateTask exTasked uSolver 3 (some "completed")
        = (exTasked, Resp.err 400 "Invalid status value")) ∧
    ("completed" ∈ taskStatuses → uSolver.role = "problem_solver" →
      (⟨0, 1, some 2, "in_progress"⟩ : Project).assignedSolverId = some uSolver.id →
      (updateTask exTasked uSolver 3 (some "completed")).2 = Resp.ok ∧
      (updateTask exTasked uSolver 3 (some "completed")).1.tasks.find?
          (fun x => x.id == 3)
        = some { (⟨3, 0, 2, "pending"⟩ : Task) with status :=
            if "completed" = "pending" ∨ "completed" = "in_progress" ∨
                "completed" = "submitted" then "completed"
            else (⟨3, 0, 2, "pending"⟩ : Task).status }) ∧
    ("completed" ∈ taskStatuses → uSolver.role = "buyer" →
      (⟨0, 1, some 2, "in_progress"⟩ : Project).buyerId = uSolver.id →
      (updateTask exTasked uSolver 3 (some "completed")).2 = Resp.ok ∧
      (updateTask exTasked uSolver 3 (some "completed")).1.tasks.find?
          (fun x => x.id == 3)
        = some { (⟨3, 0, 2, "pending"⟩ : Task) with status :=
            if "completed" = "completed" ∨ "completed" = "rejected" then "completed"
            else (⟨3, 0, 2, "pending"⟩ : Task).status }) :=
  updateTask_role_allowlists exTasked uSolver 3 "completed" ⟨3, 0, 2, "pending"⟩
    ⟨0, 1, some 2, "in_progress"⟩ (by decide) (by decide)

theorem length_filter_updWhere_congr {α : Type} (c : α → Bool) (f : α → α)
    (q p : α → Bool) (h : ∀ x, q (if c x then f x else x) = p x) (l : List α) :
    ((updWhere c f l).filter q).length = (l.filter p).length := by
  unfold updWhere
  exact length_filter_map_congr _ _ _ h l

/-- Claim C6: with a file present and the task's project assigned to the
acting solver, `createSubmission` forces the task to `"submitted"` whatever
its prior status; when a submission for the task already exists it is
replaced in place (row count and per-task count unchanged, new file, status
reset to `"pending"`), and when none exists (per-task count 0) a single new
row is appended with status `"pending"`. -/
theorem createSubmission_replace_spec (db : DB) (actor : User) (tid fileRef : Nat)
    (t : Task) (p : Project)
    (hrole : actor.role = "problem_solver")
    (htfind : db.tasks.find? (fun x => x.id == tid) = some t)
    (hpfind : db.projects.find? (fun q => q.id == t.projectId) = some p)
    (hmine : p.assignedSolverId = some actor.id) :
    (createSubmission db actor tid true fileRef).2 = Resp.ok ∧
    (createSubmission db actor tid true fileRef).1.tasks.find? (fun x => x.id == tid)
      = some { t with status := "submitted" } ∧
    (∀ old, db.submissions.find? (fun x => x.taskId == tid) = some old →
      (createSubmission db actor tid true fileRef).1.submissions.length
        = db.submissions.length ∧
      ((createSubmission db actor tid true fileRef).1.submissions.filter
          (fun x => x.taskId == tid)).length
        = (db.submissions.filter (fun x => x.taskId == tid)).length ∧
      ∀ x ∈ (createSubmission db actor tid true fileRef).1.submissions,
        x.taskId = tid → x.status = "pending" ∧ x.fileRef = fileRef) ∧
    (db.submissions.find? (fun x => x.taskId == tid) = none →
      (db.submissions.filter (fun x => x.taskId == tid)).length = 0 ∧
      (createSubmission db actor tid true fileRef).1.submissions
        = db.submissions ++
            [⟨db.nextId, tid, t.projectId, actor.id, fileRef, "pending", false⟩]) := by
  have ht_id : t.id = tid := by simpa using List.find?_some htfind
  cases hsub : db.submissions.find? (fun x => x.taskId == tid) with
  | some old0 =>
    have hred : createSubmission db actor tid true fileRef
        = ({ db with
              submissions := updWhere (fun x => x.taskId == tid)
                (fun x => { x with fileRef := fileRef, status := "pending" })
                db.submissions,
              tasks := updWhere (fun x => x.id == tid)
                (fun x => { x with status := "submitted" }) db.tasks }, Resp.ok) := by
      unfold createSubmission
      rw [if_neg (by simp [hrole]), if_neg (by simp), htfind]
      dsimp only
      rw [hpfind]
      dsimp only
      rw [if_neg (by simp [hmine]), hsub]
    have hresp : (createSubmission db actor tid true fileRef).2 = Resp.ok := by rw [hred]
    have htasks : (createSubmission db actor tid true fileRef).1.tasks
        = updWhere (fun x => x.id == tid)
            (fun x => { x with status := "submitted" }) db.tasks := by
      rw [hred]
    have hsubs : (createSubmission db actor tid true fileRef).1.submissions
        = updWhere (fun x => x.taskId == tid)
            (fun x => { x with fileRef := fileRef, status := "pending" })
            db.submissions := by
      rw [hred]
    refine ⟨hresp, ?_, ?_, ?_⟩
    · rw [htasks,
        find?_updWhere_key (fun x : Task => x.id) (fun x => x.id == tid)
          (fun x => { x with status := "submitted" }) tid (fun x => rfl) db.tasks,
        htfind]
      simp [ht_id]
    · intro old hold
      refine ⟨?_, ?_, ?_⟩
      · rw [hsubs]
        simp [updWhere]
      · rw [hsubs]
        refine length_filter_updWhere_congr _ _ _ _ ?_ db.submissions
        intro x
        by_cases hx : x.taskId == tid <;> simp [hx]
      · rw [hsubs]
        intro x hx hxt
        rcases mem_updWhere_iff.1 hx with ⟨y, hy, hyx⟩
        by_cases hyc : y.taskId == tid
        · rw [if_pos hyc] at hyx
          rw [← hyx]
          exact ⟨rfl, rfl⟩
        · rw [if_neg hyc] at hyx
          rw [← hyx] at hxt
          exact absurd hxt (by simpa using hyc)
    · intro hnone
      exact Option.noConfusion hnone
  | none =>
    have hred : createSubmission db actor tid true fileRef
        = ({ db with
              submissions := db.submissions ++
                [⟨db.nextId, tid, t.projectId, actor.id, fileRef, "pending", false⟩],
              tasks := updWhere (fun x => x.id == tid)
                (fun x => { x with status := "submitted" }) db.tasks,
              nextId := db.nextId + 1 }, Resp.ok) := by
      unfold createSubmission
      rw [if_neg (by simp [hrole]), if_neg (by simp), htfind]
      dsimp only
      rw [hpfind]
      dsimp only
      rw [if_neg (by simp [hmine]), hsub]
    have hresp : (createSubmission db actor tid true fileRef).2 = Resp.ok := by rw [hred]
    have htasks : (createSubmission db actor tid true fileRef).1.tasks
        = updWhere (fun x => x.id == tid)
            (fun x => { x with status := "submitted" }) db.tasks := by
      rw [hred]
    have hsubs : (createSubmission db actor tid true fileRef).1.submissions
        = db.submissions ++
            [⟨db.nextId, tid, t.projectId, actor.id, fileRef, "pending", false⟩] := by
      rw [hred]
    refine ⟨hresp, ?_, ?_, ?_⟩
    · rw [htasks,
        find?_updWhere_key (fun x : Task => x.id) (fun x => x.id == tid)
          (fun x => { x with status := "submitted" }) tid (fun x => rfl) db.tasks,
        htfind]
      simp [ht_id]
    · intro old hold
      exact Option.noConfusion hold
    · intro _
      refine ⟨?_, hsubs⟩
      rw [List.length_eq_zero]
      rw [List.filter_eq_nil_iff]
      intro a ha
      exact List.find?_eq_none.1 hsub a ha

theorem createSubmission_replace_spec_witness :
    (createSubmission exDB6 uSolver 13 true 77).2 = Resp.ok ∧
    (createSubmission exDB6 uSolver 13 true 77).1.tasks.find? (fun x => x.id == 13)
      = some { (⟨13, 10, 2, "submitted"⟩ : Task) with status := "submitted" } ∧
    (∀ old, exDB6.submissions.find? (fun x => x.taskId == 13) = some old →
      (createSubmission exDB6 uSolver 13 true 77).1.submissions.length
        = exDB6.submissions.length ∧
      ((createSubmission exDB6 uSolver 13 true 77).1.submissions.filter
          (fun x => x.taskId == 13)).length
        = (exDB6.submissions.filter (fun x => x.taskId == 13)).length ∧
      ∀ x ∈ (createSubmission exDB6 uSolver 13 true 77).1.submissions,
        x.taskId = 13 → x.status = "pending" ∧ x.fileRef = 77) ∧
    (exDB6.submissions.find? (fun x => x.taskId == 13) = none →
      (exDB6.submissions.filter (fun x => x.taskId == 13)).length = 0 ∧
      (createSubmission exDB6 uSolver 13 true 77).1.submissions
        = exDB6.submissions ++ [⟨exDB6.nextId, 13, 10, uSolver.id, 77, "pending", false⟩]) :=
  createSubmission_replace_spec exDB6 uSolver 13 77 ⟨13, 10, 2, "submitted"⟩
    ⟨10, 1, some 2, "in_progress"⟩ rfl (by decide) (by decide) (by decide)

/-- Claim C4: for a submission of a project owned by the acting buyer,
reviewing with `"accepted"` sets the submission's task to `"completed"` and
then sets the project to `"completed"` exactly when every task of the
project (re-read after the task update) is completed and there is at least
one task; reviewing with `"rejected"` sets the task to `"rejected"` and
leaves the project list unchanged. -/
theorem reviewSubmission_spec (db : DB) (actor : User) (sid : Nat) (dec : String)
    (s : Submission) (p : Project) (t : Task)
    (hrole : actor.role = "buyer")
    (hsfind : db.submissions.find? (fun x => x.id == sid) = some s)
    (hpfind : db.projects.find? (fun q => q.id == s.projectId) = some p)
    (hown : p.buyerId = actor.id)
    (htfind : db.tasks.find? (fun x => x.id == s.taskId) = some t) :
    (dec = "accepted" →
      (reviewSubmission db actor sid dec).2 = Resp.ok ∧
      (reviewSubmission db actor sid dec).1.tasks.find? (fun x => x.id == s.taskId)
        = some { t with status := "completed" } ∧
      (reviewSubmission db actor sid dec).1.projects.find?
          (fun q => q.id == s.projectId)
        = some { p with status :=
            if (((reviewSubmission db actor sid dec).1.tasks.filter
                    (fun x => x.projectId == s.projectId)).all
                  (fun x => x.status == "completed"))
                ∧ 0 < ((reviewSubmission db actor sid dec).1.tasks.filter
                    (fun x => x.projectId == s.projectId)).length
            then "completed" else p.status }) ∧
    (dec = "rejected" →
      (reviewSubmission db actor sid dec).2 = Resp.ok ∧
      (reviewSubmission db actor sid dec).1.tasks.find? (fun x => x.id == s.taskId)
        = some { t with status := "rejected" } ∧
      (reviewSubmission db actor sid dec).1.projects = db.projects) := by
  have ht_id : t.id = s.taskId := by simpa using List.find?_some htfind
  have hp_id : p.id = s.projectId := by simpa using List.find?_some hpfind
  have hany : (db.tasks.any fun x => x.id == s.taskId) = true :=
    List.any_eq_true.2 ⟨t, List.mem_of_find?_eq_some htfind, by simp [ht_id]⟩
  constructor
  · intro hdec
    have hred : reviewSubmission db actor sid dec
        = ({ db with
              submissions := updWhere (fun x => x.id == sid)
                (fun x => { x with status := dec, reviewed := true }) db.submissions,
              tasks := updWhere (fun x => x.id == s.taskId)
                (fun x => { x with status := "completed" }) db.tasks,
              projects :=
                if (((updWhere (fun x => x.id == s.taskId)
                        (fun x => { x with status := "completed" }) db.tasks).filter
                        (fun x => x.projectId == s.projectId)).all
                      (fun x => x.status == "completed"))
                    ∧ 0 < ((updWhere (fun x => x.id == s.taskId)
                        (fun x => { x with status := "completed" }) db.tasks).filter
                        (fun x => x.projectId == s.projectId)).length
                then updWhere (fun q => q.id == s.projectId)
                  (fun q => { q with status := "completed" }) db.projects
                else db.projects }, Resp.ok) := by
      unfold reviewSubmission
      rw [if_neg (by simp [hrole]), if_neg (by simp [hdec]), hsfind]
      dsimp only
      rw [hpfind]
      dsimp only
      rw [if_neg (by simp [hown]), if_pos hany, if_pos hdec]
    have hresp : (reviewSubmission db actor sid dec).2 = Resp.ok := by rw [hred]
    have htasks : (reviewSubmission db actor sid dec).1.tasks
        = updWhere (fun x => x.id == s.taskId)
            (fun x => { x with status := "completed" }) db.tasks := by
      rw [hred]
    have hprojs : (reviewSubmission db actor sid dec).1.projects
        = if (((updWhere (fun x => x.id == s.taskId)
                  (fun x => { x with status := "completed" }) db.tasks).filter
                  (fun x => x.projectId == s.projectId)).all
                (fun x => x.status == "completed"))
              ∧ 0 < ((updWhere (fun x => x.id == s.taskId)
                  (fun x => { x with status := "completed" }) db.tasks).filter
                  (fun x => x.projectId == s.projectId)).length
          then updWhere (fun q => q.id == s.projectId)
            (fun q => { q with status := "completed" }) db.projects
          else db.projects := by
      rw [hred]
    refine ⟨hresp, ?_, ?_⟩
    · rw [htasks,
        find?_updWhere_key (fun x : Task => x.id) (fun x => x.id == s.taskId)
          (fun x => { x with status := "completed" }) s.taskId (fun x => rfl) db.tasks,
        htfind]
      simp [ht_id]
    · rw [htasks, hprojs]
      by_cases hcond : (((updWhere (fun x => x.id == s.taskId)
              (fun x => { x with status := "completed" }) db.tasks).filter
              (fun x => x.projectId == s.projectId)).all
            (fun x => x.status == "completed"))
          ∧ 0 < ((updWhere (fun x => x.id == s.taskId)
              (fun x => { x with status := "completed" }) db.tasks).filter
              (fun x => x.projectId == s.projectId)).length
      · rw [if_pos hcond, if_pos hcond,
          find?_updWhere_key (fun q : Project => q.id) (fun q => q.id == s.projectId)
            (fun q => { q with status := "completed" }) s.projectId (fun x => rfl)
            db.projects,
          hpfind]
        simp [hp_id]
      · rw [if_neg hcond, if_neg hcond, hpfind]
  · intro hdec
    have hred : reviewSubmission db actor sid dec
        = ({ db with
              submissions := updWhere (fun x => x.id == sid)
                (fun x => { x with status := dec, reviewed := true }) db.submissions,
              tasks := updWhere (fun x => x.id == s.taskId)
                (fun x => { x with status := "rejected" }) db.tasks }, Resp.ok) := by
      unfold reviewSubmission
      rw [if_neg (by simp [hrole]), if_neg (by simp [hdec]), hsfind]
      dsimp only
      rw [hpfind]
      dsimp only
      rw [if_neg (by simp [hown]), if_pos hany, if_neg (by simp [hdec])]
    have hresp : (reviewSubmission db actor sid dec).2 = Resp.ok := by rw [hred]
    have htasks : (reviewSubmission db actor sid dec).1.tasks
        = updWhere (fun x => x.id == s.taskId)
            (fun x => { x with status := "rejected" }) db.tasks := by
      rw [hred]
    have hprojs : (reviewSubmission db actor sid dec).1.projects = db.projects := by
      rw [hred]
    refine ⟨hresp, ?_, hprojs⟩
    rw [htasks,
      find?_updWhere_key (fun x : Task => x.id) (fun x => x.id == s.taskId)
        (fun x => { x with status := "rejected" }) s.taskId (fun x => rfl) db.tasks,
      htfind]
    simp [ht_id]

theorem reviewSubmission_spec_witness :
    ("accepted" = "accepted" →
      (reviewSubmission exDB6 uBuyer 14 "accepted").2 = Resp.ok ∧
      (reviewSubmission exDB6 uBuyer 14 "accepted").1.tasks.find? (fun x => x.id == 13)
        = some { (⟨13, 10, 2, "submitted"⟩ : Task) with status := "completed" } ∧
      (reviewSubmission exDB6 uBuyer 14 "accepted").1.projects.find?
          (fun q => q.id == 10)
        = some { (⟨10, 1, some 2, "in_progress"⟩ : Project) with status :=
            if (((reviewSubmission exDB6 uBuyer 14 "accepted").1.tasks.filter
                    (fun x => x.projectId == 10)).all
                  (fun x => x.status == "completed"))
                ∧ 0 < ((reviewSubmission exDB6 uBuyer 14 "accepted").1.tasks.filter
                    (fun x => x.projectId == 10)).length
            then "completed"
            else (⟨10, 1, some 2, "in_progress"⟩ : Project).status }) ∧
    ("accepted" = "rejected" →
      (reviewSubmission exDB6 uBuyer 14 "accepted").2 = Resp.ok ∧
      (reviewSubmission exDB6 uBuyer 14 "accepted").1.tasks.find? (fun x => x.id == 13)
        = some { (⟨13, 10, 2, "submitted"⟩ : Task) with status := "rejected" } ∧
      (reviewSubmission exDB6 uBuyer 14 "accepted").1.projects = exDB6.projects) :=
  reviewSubmission_spec exDB6 uBuyer 14 "accepted" ⟨14, 13, 10, 2, 99, "pending", false⟩
    ⟨10, 1, some 2, "in_progress"⟩ ⟨13, 10, 2, "submitted"⟩ rfl (by decide) (by decide)
    rfl (by decide)

/-- Claim C10: reviewing an owned submission succeeds with either decision
with no check of the submission's current status (no invalid-state error):
the decision overwrites `submission.status`, `reviewedAt` is set, and the
task's status is overwritten to `"completed"`/`"rejected"` — even when the
submission had already been accepted or rejected before. -/
theorem reviewSubmission_no_invalid_state (db : DB) (actor : User) (sid : Nat)
    (dec : String) (s : Submission) (p : Project) (t : Task)
    (hrole : actor.role = "buyer")
    (hdec : dec = "accepted" ∨ dec = "rejected")
    (hsfind : db.submissions.find? (fun x => x.id == sid) = some s)
    (hpfind : db.projects.find? (fun q => q.id == s.projectId) = some p)
    (hown : p.buyerId = actor.id)
    (htfind : db.tasks.find? (fun x => x.id == s.taskId) = some t) :
    (reviewSubmission db actor sid dec).2 = Resp.ok ∧
    (reviewSubmission db actor sid dec).1.submissions.find? (fun x => x.id == sid)
      = some { s with status := dec, reviewed := true } ∧
    (reviewSubmission db actor sid dec).1.tasks.find? (fun x => x.id == s.taskId)
      = some { t with status :=
          if dec = "accepted" then "completed" else "rejected" } := by
  have ht_id : t.id = s.taskId := by simpa using List.find?_some htfind
  have hs_id : s.id = sid := by simpa using List.find?_some hsfind
  have hany : (db.tasks.any fun x => x.id == s.taskId) = true :=
    List.any_eq_true.2 ⟨t, List.mem_of_find?_eq_some htfind, by simp [ht_id]⟩
  cases hdec with
  | inl hdec =>
    have hred : reviewSubmission db actor sid dec
        = ({ db with
              submissions := updWhere (fun x => x.id == sid)
                (fun x => { x with status := dec, reviewed := true }) db.submissions,
              tasks := updWhere (fun x => x.id == s.taskId)
                (fun x => { x with status := "completed" }) db.tasks,
              projects :=
                if (((updWhere (fun x => x.id == s.taskId)
                        (fun x => { x with status := "completed" }) db.tasks).filter
                        (fun x => x.projectId == s.projectId)).all
                      (fun x => x.status == "completed"))
                    ∧ 0 < ((updWhere (fun x => x.id == s.taskId)
                        (fun x => { x with status := "completed" }) db.tasks).filter
                        (fun x => x.projectId == s.projectId)).length
                then updWhere (fun q => q.id == s.projectId)
                  (fun q => { q with status := "completed" }) db.projects
                else db.projects }, Resp.ok) := by
      unfold reviewSubmission
      rw [if_neg (by simp [hrole]), if_neg (by simp [hdec]), hsfind]
      dsimp only
      rw [hpfind]
      dsimp only
      rw [if_neg (by simp [hown]), if_pos hany, if_pos hdec]
    have hresp : (reviewSubmission db actor sid dec).2 = Resp.ok := by rw [hred]
    have hsubs : (reviewSubmission db actor sid dec).1.submissions
        = updWhere (fun x => x.id == sid)
            (fun x => { x with status := dec, reviewed := true }) db.submissions := by
      rw [hred]
    have htasks : (reviewSubmission db actor sid dec).1.tasks
        = updWhere (fun x => x.id == s.taskId)
            (fun x => { x with status := "completed" }) db.tasks := by
      rw [hred]
    refine ⟨hresp, ?_, ?_⟩
    · rw [hsubs,
        find?_updWhere_key (fun x : Submission => x.id) (fun x => x.id == sid)
          (fun x => { x with status := dec, reviewed := true }) sid (fun x => rfl)
          db.submissions,
        hsfind]
      simp [hs_id]
    · rw [htasks,
        find?_updWhere_key (fun x : Task => x.id) (fun x => x.id == s.taskId)
          (fun x => { x with status := "completed" }) s.taskId (fun x => rfl) db.tasks,
        htfind]
      simp [ht_id, hdec]
  | inr hdec =>
    have hred : reviewSubmission db actor sid dec
        = ({ db with
              submissions := updWhere (fun x => x.id == sid)
                (fun x => { x with status := dec, reviewed := true }) db.submissions,
              tasks := updWhere (fun x => x.id == s.taskId)
                (fun x => { x with status := "rejected" }) db.tasks }, Resp.ok) := by
      unfold reviewSubmission
      rw [if_neg (by simp [hrole]), if_neg (by simp [hdec]), hsfind]
      dsimp only
      rw [hpfind]
      dsimp only
      rw [if_neg (by simp [hown]), if_pos hany, if_neg (by simp [hdec])]
    have hresp : (reviewSubmission db actor sid dec).2 = Resp.ok := by rw [hred]
    have hsubs : (reviewSubmission db actor sid dec).1.submissions
        = updWhere (fun x => x.id == sid)
            (fun x => { x with status := dec, reviewed := true }) db.submissions := by
      rw [hred]
    have htasks : (reviewSubmission db actor sid dec).1.tasks
        = updWhere (fun x => x.id == s.taskId)
            (fun x => { x with status := "rejected" }) db.tasks := by
      rw [hred]
    refine ⟨hresp, ?_, ?_⟩
    · rw [hsubs,
        find?_updWhere_key (fun x : Submission => x.id) (fun x => x.id == sid)
          (fun x => { x with status := dec, reviewed := true }) sid (fun x => rfl)
          db.submissions,
        hsfind]
      simp [hs_id]
    · rw [htasks,
        find?_updWhere_key (fun x : Task => x.id) (fun x => x.id == s.taskId)
          (fun x => { x with status := "rejected" }) s.taskId (fun x => rfl) db.tasks,
        htfind]
      simp [ht_id, hdec]

theorem reviewSubmission_no_invalid_state_witness :
    (reviewSubmission exDB7 uBuyer 14 "rejected").2 = Resp.ok ∧
    (reviewSubmission exDB7 uBuyer 14 "rejected").1.submissions.find?
        (fun x => x.id == 14)
      = some { (⟨14, 13, 10, 2, 99, "accepted", true⟩ : Submission) with
          status := "rejected", reviewed := true } ∧
    (reviewSubmission exDB7 uBuyer 14 "rejected").1.tasks.find? (fun x => x.id == 13)
      = some { (⟨13, 10, 2, "completed"⟩ : Task) with status :=
          if "rejected" = "accepted" then "completed" else "rejected" } :=
  reviewSubmission_no_invalid_state exDB7 uBuyer 14 "rejected"
    ⟨14, 13, 10, 2, 99, "accepted", true⟩ ⟨10, 1, some 2, "completed"⟩
    ⟨13, 10, 2, "completed"⟩ rfl (Or.inr rfl) (by decide) (by decide) rfl (by decide)

/-- Claim C8 counterexample: in `exDB4` the project has been assigned, its
requests still exist (one of them from `uSolver`), and `uSolver` posts a
duplicate request: the call fails, but with the invalid-state response
`"Project is not open for requests"`, not with the Conflict response — so a
duplicate does not *always* fail with Conflict. -/
theorem duplicate_request_not_conflict_counterexample :
    (∃ r ∈ exDB4.requests, r.projectId = 10 ∧ r.solverId = uSolver.id) ∧
    (createRequest exDB4 uSolver 10).2
      = Resp.err 400 "Project is not open for requests" ∧
    (createRequest exDB4 uSolver 10).2 ≠ conflictResp ∧
    (createRequest exDB4 uSolver 10).1 = exDB4 := by
  decide

/-- Claim C8 (amended): a duplicate request always fails and never creates a
row; it fails with the Conflict response exactly when the project is still
open (the pre-check), while whenever the project is no longer open it fails
with the invalid-state response `"Project is not open for requests"`, which
is not the Conflict response. Independently, the store-level unique index on
(projectId, solverId) rejects any duplicate insert with `P2002`. -/
theorem duplicate_request_always_fails (db : DB) (actor : User) (pid : Nat) (p : Project)
    (hrole : actor.role = "problem_solver")
    (hfind : db.projects.find? (fun q => q.id == pid) = some p)
    (hdup : ∃ r ∈ db.requests, r.projectId = pid ∧ r.solverId = actor.id) :
    ((createRequest db actor pid).1 = db ∧
      ((createRequest db actor pid).2 = conflictResp ∨
        (createRequest db actor pid).2
          = Resp.err 400 "Project is not open for requests")) ∧
    (p.status = "open" → (createRequest db actor pid).2 = conflictResp) ∧
    (p.status ≠ "open" →
      (createRequest db actor pid).2
        = Resp.err 400 "Project is not open for requests" ∧
      (createRequest db actor pid).2 ≠ conflictResp) ∧
    (∀ (rs : List Request) (r : Request),
      (∃ x ∈ rs, x.projectId = r.projectId ∧ x.solverId = r.solverId) →
      requestsCreateUnique rs r = Except.error "P2002") := by
  have hstore : ∀ (rs : List Request) (r : Request),
      (∃ x ∈ rs, x.projectId = r.projectId ∧ x.solverId = r.solverId) →
      requestsCreateUnique rs r = Except.error "P2002" := by
    intro rs r ⟨x, hx, hxp, hxs⟩
    unfold requestsCreateUnique
    rw [if_pos]
    exact List.any_eq_true.2 ⟨x, hx, by simp [hxp, hxs]⟩
  by_cases hopen : p.status = "open"
  · have hpre : ∃ r, db.requests.find?
        (fun r => r.projectId == pid && r.solverId == actor.id) = some r := by
      obtain ⟨r, hr, hrp, hrs⟩ := hdup
      have : (db.requests.find?
          (fun r => r.projectId == pid && r.solverId == actor.id)).isSome = true := by
        rw [List.find?_isSome]
        exact ⟨r, hr, by simp [hrp, hrs]⟩
      exact Option.isSome_iff_exists.1 this
    obtain ⟨r0, hr0⟩ := hpre
    have hred : createRequest db actor pid = (db, conflictResp) := by
      unfold createRequest
      rw [if_neg (by simp [hrole]), hfind]
      dsimp only
      rw [if_neg (by simp [hopen]), hr0]
      rfl
    rw [hred]
    exact ⟨⟨rfl, Or.inl rfl⟩, fun _ => rfl, fun h => absurd hopen h, hstore⟩
  · have hred : createRequest db actor pid
        = (db, Resp.err 400 "Project is not open for requests") := by
      unfold createRequest
      rw [if_neg (by simp [hrole]), hfind]
      dsimp only
      rw [if_pos hopen]
    rw [hred]
    refine ⟨⟨rfl, Or.inr rfl⟩, fun h => absurd h hopen, fun _ => ⟨rfl, ?_⟩, hstore⟩
    show Resp.err 400 "Project is not open for requests" ≠ conflictResp
    decide

theorem duplicate_request_always_fails_witness :
    ((createRequest exDB2 uSolver 10).1 = exDB2 ∧
      ((createRequest exDB2 uSolver 10).2 = conflictResp ∨
        (createRequest exDB2 uSolver 10).2
          = Resp.err 400 "Project is not open for requests")) ∧
    ((⟨10, 1, none, "open"⟩ : Project).status = "open" →
      (createRequest exDB2 uSolver 10).2 = conflictResp) ∧
    ((⟨10, 1, none, "open"⟩ : Project).status ≠ "open" →
      (createRequest exDB2 uSolver 10).2
        = Resp.err 400 "Project is not open for requests" ∧
      (createRequest exDB2 uSolver 10).2 ≠ conflictResp) ∧
    (∀ (rs : List Request) (r : Request),
      (∃ x ∈ rs, x.projectId = r.projectId ∧ x.solverId = r.solverId) →
      requestsCreateUnique rs r = Except.error "P2002") :=
  duplicate_request_always_fails exDB2 uSolver 10 ⟨10, 1, none, "open"⟩ rfl (by decide)
    (by decide)

theorem users_unchanged_createProject (db : DB) (actor : User) :
    (createProject db actor).1.users = db.users := by
  unfold createProject
  repeat' split
  all_goals rfl

theorem users_unchanged_assignSolver (db : DB) (actor : User) (pid sid : Nat) :
    (assignSolver db actor pid sid).1.users = db.users := by
  unfold assignSolver
  repeat' split
  all_goals rfl

theorem users_unchanged_createRequest (db : DB) (actor : User) (pid : Nat) :
    (createRequest db actor pid).1.users = db.users := by
  unfold createRequest
  repeat' split
  all_goals rfl

theorem users_unchanged_createTask (db : DB) (actor : User) (pid : Nat) :
    (createTask db actor pid).1.users = db.users := by
  unfold createTask
  repeat' split
  all_goals rfl

theorem users_unchanged_updateTask (db : DB) (actor : User) (tid : Nat)
    (st : Option String) : (updateTask db actor tid st).1.users = db.users := by
  unfold updateTask
  repeat' split
  all_goals rfl

theorem users_unchanged_createSubmission (db : DB) (actor : User) (tid : Nat)
    (hasFile : Bool) (fileRef : Nat) :
    (createSubmission db actor tid hasFile fileRef).1.users = db.users := by
  unfold createSubmission
  repeat' split
  all_goals rfl

theorem users_unchanged_reviewSubmission (db : DB) (actor : User) (sid : Nat)
    (dec : String) : (reviewSubmission db actor sid dec).1.users = db.users := by
  unfold reviewSubmission
  repeat' split
  all_goals rfl

/-- Claim C9 counterexample: the acting admin targets their own account with
`PUT /api/users/:id/assign-buyer`; the handler succeeds and turns the
admin's own role into `"buyer"` — there is no self-exclusion check. -/
theorem assignBuyer_self_counterexample :
    uAdmin.role = "admin" ∧
    (assignBuyer exDB0 uAdmin uAdmin.id).2 = Resp.ok ∧
    (assignBuyer exDB0 uAdmin uAdmin.id).1.users.find? (fun u => u.id == uAdmin.id)
      = some ⟨0, "buyer"⟩ := by
  decide

/-- Claim C9 (amended): the role-assignment operation only ever writes the
role `"buyer"`, so no operation moves a role in the reverse direction
(every step leaves each user's role unchanged or sets it to `"buyer"`) —
but the operation does apply to the acting admin's own account: it succeeds
for every existing target user, the acting admin included. -/
theorem role_transitions_one_directional :
    (∀ (db : DB) (actor : User) (uid : Nat), actor.role = "admin" →
      (∃ u ∈ db.users, u.id = uid) →
      (assignBuyer db actor uid).2 = Resp.ok ∧
      ∀ u ∈ (assignBuyer db actor uid).1.users, u.id = uid → u.role = "buyer") ∧
    (∀ (db db' : DB), Step db db' →
      ∀ u' ∈ db'.users, ∃ u ∈ db.users,
        u.id = u'.id ∧ (u'.role = u.role ∨ u'.role = "buyer")) := by
  have hpromote : ∀ (db : DB) (actor : User) (uid : Nat),
      ∀ u' ∈ (assignBuyer db actor uid).1.users, ∃ u ∈ db.users,
        u.id = u'.id ∧ (u'.role = u.role ∨ u'.role = "buyer") := by
    intro db actor uid u' hu'
    revert hu'
    unfold assignBuyer
    split
    · exact fun hu' => ⟨u', hu', rfl, Or.inl rfl⟩
    split
    · intro hu'
      rcases mem_updWhere_iff.1 hu' with ⟨y, hy, hyx⟩
      by_cases hyc : y.id == uid
      · rw [if_pos hyc] at hyx
        exact ⟨y, hy, by rw [← hyx], Or.inr (by rw [← hyx])⟩
      · rw [if_neg hyc] at hyx
        exact ⟨y, hy, by rw [← hyx], Or.inl (by rw [← hyx])⟩
    · exact fun hu' => ⟨u', hu', rfl, Or.inl rfl⟩
  constructor
  · intro db actor uid hrole hex
    have hany : (db.users.any fun u => u.id == uid) = true := by
      obtain ⟨u, hu, hid⟩ := hex
      exact List.any_eq_true.2 ⟨u, hu, by simp [hid]⟩
    have hred : assignBuyer db actor uid
        = ({ db with
              users := updWhere (fun u => u.id == uid)
                (fun u => { u with role := "buyer" }) db.users }, Resp.ok) := by
      unfold assignBuyer
      rw [if_neg (by simp [hrole]), if_pos hany]
    have husers : (assignBuyer db actor uid).1.users
        = updWhere (fun u => u.id == uid)
            (fun u => { u with role := "buyer" }) db.users := by
      rw [hred]
    refine ⟨by rw [hred], ?_⟩
    rw [husers]
    intro u hu hid
    rcases mem_updWhere_iff.1 hu with ⟨y, hy, hyx⟩
    by_cases hyc : y.id == uid
    · rw [if_pos hyc] at hyx
      rw [← hyx]
    · rw [if_neg hyc] at hyx
      rw [← hyx] at hid
      exact absurd hid (by simpa using hyc)
  · intro db db' hstep u' hu'
    cases hstep with
    | newProject actor =>
        rw [users_unchanged_createProject] at hu'
        exact ⟨u', hu', rfl, Or.inl rfl⟩
    | assign actor pid sid =>
        rw [users_unchanged_assignSolver] at hu'
        exact ⟨u', hu', rfl, Or.inl rfl⟩
    | newRequest actor pid =>
        rw [users_unchanged_createRequest] at hu'
        exact ⟨u', hu', rfl, Or.inl rfl⟩
    | newTask actor pid =>
        rw [users_unchanged_createTask] at hu'
        exact ⟨u', hu', rfl, Or.inl rfl⟩
    | updTask actor tid st =>
        rw [users_unchanged_updateTask] at hu'
        exact ⟨u', hu', rfl, Or.inl rfl⟩
    | submit actor tid hasFile fileRef =>
        rw [users_unchanged_createSubmission] at hu'
        exact ⟨u', hu', rfl, Or.inl rfl⟩
    | review actor sid dec =>
        rw [users_unchanged_reviewSubmission] at hu'
        exact ⟨u', hu', rfl, Or.inl rfl⟩
    | promote actor uid =>
        exact hpromote db actor uid u' hu'

theorem role_transitions_one_directional_witness :
    (assignBuyer exDB0 uAdmin 3).2 = Resp.ok ∧
    ∀ u ∈ (assignBuyer exDB0 uAdmin 3).1.users, u.id = 3 → u.role = "buyer" :=
  role_transitions_one_directional.1 exDB0 uAdmin 3 rfl ⟨uSolver2, by decide, rfl⟩

end Marketplace